import Mathlib

/-!
Verification of the AFX_X data-wrangling mini-project (repository
`api_exercises_sb`).  The repository contains two renditions of the same
analysis: the public notebook `api_data_wrangling_mini_project_public.ipynb`
(namespace `Notebook`) and an unnamed earlier rendition `src/unnamed/part_000`
(namespace `Part000`).

Modelling conventions (shallow embedding):
* Prices and volumes are rationals (`ℚ`); a nullable JSON cell is
  `Cell := Option ℚ`.  A raw data row is a `List Cell`, a payload's `data`
  is a `List (List Cell)`.
* Python expressions that can raise (`IndexError` on a short row,
  `TypeError` on `None` arithmetic / `None` comparison, `ValueError` from
  `max`/`min` of an empty sequence, `StatisticsError` from the
  `statistics` module) are modelled with `Option`: `none` is a raised
  exception, `some v` a normal result.
* A Python list comprehension `[f(x) for x in xs]` whose body may raise is
  `optList (xs.map f)` where `f` returns `Option`; a comprehension with an
  `if` guard that cannot raise is a `filterMap`.
-/

abbrev Cell := Option ℚ

/-- Sequences a list of optional values: `some` of the list of results when
every element is `some`, and `none` as soon as any element is `none`.  This
models a Python list comprehension whose body may raise an exception. -/
def optList {α : Type} : List (Option α) → Option (List α)
  | [] => some []
  | none :: _ => none
  | some a :: rest => (optList rest).map (fun l => a :: l)

/-- Python's `list.index(a)`: position of the first occurrence of `a`.
The sources only call it with `a` present in the list; on a list not
containing `a` this total model returns the length. -/
def listIndex {α : Type} [DecidableEq α] (a : α) : List α → ℕ
  | [] => 0
  | b :: l => if b = a then 0 else listIndex a l + 1

/-- One step of Python's `max` over a sequence: the accumulator is `none`
before the first element. -/
def maxStep (acc : Option ℚ) (x : ℚ) : Option ℚ :=
  some (match acc with | none => x | some m => max m x)

/-- One step of Python's `min` over a sequence. -/
def minStep (acc : Option ℚ) (x : ℚ) : Option ℚ :=
  some (match acc with | none => x | some m => min m x)

/-- Python's built-in `max` over a list: `none` models the `ValueError`
raised on an empty sequence. -/
def pyMax (l : List ℚ) : Option ℚ :=
  l.foldl maxStep none

/-- Python's built-in `min` over a list, `none` modelling the `ValueError`
raised on an empty sequence. -/
def pyMin (l : List ℚ) : Option ℚ :=
  l.foldl minStep none

/-- Python's `statistics.median` on a list of numbers: sort ascending, take
the middle element for an odd count, the mean of the two middle elements for
an even count; `none` models the `StatisticsError` raised on no data. -/
def pyMedian (l : List ℚ) : Option ℚ :=
  let s := l.insertionSort (· ≤ ·)
  let n := l.length
  if n = 0 then none
  else if n % 2 = 1 then some (s.getD (n / 2) 0)
  else some ((s.getD (n / 2 - 1) 0 + s.getD (n / 2) 0) / 2)

/-- Direction of the reported largest overnight (adjacent-close) change. -/
inductive Direction where
  | increase : Direction
  | decrease : Direction
  deriving DecidableEq

namespace Notebook

/-- Cell 16: `opens = [i[1] for i in data_2017 if i[1] is not None]`.
The subscript `i[1]` raises `IndexError` on a row shorter than 2 (the guard
also evaluates it), hence the `optList` layer; otherwise the `None` opens are
filtered out. -/
def opens (data : List (List Cell)) : Option (List ℚ) :=
  (optList (data.map (fun i => i.get? 1))).map (fun cs => cs.filterMap id)

/-- Cell 16: `highest_open = max(opens)`. -/
def highest_open (data : List (List Cell)) : Option ℚ :=
  (opens data).bind pyMax

/-- Cell 16: `lowest_open = min(opens)`. -/
def lowest_open (data : List (List Cell)) : Option ℚ :=
  (opens data).bind pyMin

/-- Cell 17: `largest_change = max([i[2] - i[3] for i in data_2017])`.
The comprehension has no `None` guard: a short row raises `IndexError` and a
`None` high or low raises `TypeError` (`None` arithmetic), so any such row
aborts the whole computation; `max` of an empty list raises `ValueError`. -/
def largest_change (data : List (List Cell)) : Option ℚ :=
  (optList (data.map (fun i =>
    match i.get? 2, i.get? 3 with
    | some (some a), some (some b) => some (a - b)
    | _, _ => none))).bind pyMax

/-- Cell 18: `closes = [i[4] for i in data_2017]` (keeps `None` entries;
raises `IndexError` on a short row). -/
def closes (data : List (List Cell)) : Option (List Cell) :=
  optList (data.map (fun i => i.get? 4))

/-- Cell 18: the enumerate-based comprehension
`[val - closes[key-1] for key, val in enumerate(closes)
  if val is not None and closes[key-1] is not None and key > 0]`.
For `key = 0` Python safely evaluates `closes[-1]` (the last element) in the
guard and then rejects the pair on `key > 0`, so the first position never
contributes; a pair contributes exactly when both closes are non-null. -/
def overnight_changes (cs : List Cell) : List ℚ :=
  (List.range cs.length).filterMap (fun key =>
    if key = 0 then none
    else
      match cs.getD key none, cs.getD (key - 1) none with
      | some val, some prev => some (val - prev)
      | _, _ => none)

/-- Cell 18: `pos_max_overnight = max(overnight_changes)`. -/
def pos_max_overnight (cs : List Cell) : Option ℚ :=
  pyMax (overnight_changes cs)

/-- Cell 18: `neg_max_overnight = min(overnight_changes)`. -/
def neg_max_overnight (cs : List Cell) : Option ℚ :=
  pyMin (overnight_changes cs)

/-- Cell 18, the reporting branch on a close column:
`if abs(neg_max_overnight) > pos_max_overnight: ... abs(neg_max_overnight) ...
decrease  else: ... pos_max_overnight ... increase`.  `max`/`min` of an empty
delta list raise `ValueError`, modelled by `none`. -/
def report (cs : List Cell) : Option (Direction × ℚ) :=
  match pos_max_overnight cs, neg_max_overnight cs with
  | some pos, some neg =>
      some (if |neg| > pos then (Direction.decrease, |neg|) else (Direction.increase, pos))
  | _, _ => none

/-- Cell 18 end to end: extract the close column, then report. -/
def overnight_report (data : List (List Cell)) : Option (Direction × ℚ) :=
  (closes data).bind report

/-- Cell 19: `traded_volume = [i[6] for i in data_2017 if i[6] is not None]`. -/
def traded_volume (data : List (List Cell)) : Option (List ℚ) :=
  (optList (data.map (fun i => i.get? 6))).map (fun cs => cs.filterMap id)

/-- Cell 19: `avg_volume = statistics.mean(traded_volume)`;
`statistics.mean` raises `StatisticsError` on an empty list. -/
def avg_volume (data : List (List Cell)) : Option ℚ :=
  (traded_volume data).bind (fun tv =>
    if tv.isEmpty then none else some (tv.sum / tv.length))

/-- Cell 20: `median_volume = statistics.median(traded_volume)`. -/
def median_volume (data : List (List Cell)) : Option ℚ :=
  (traded_volume data).bind pyMedian

end Notebook

namespace Part000

/-- part_000 cell 3, one column of `afx_dict`: for a column `name`,
`iname = names.index(name)` and `values = [row[iname] for row in data]`.
`row[iname]` raises `IndexError` when the row is shorter than `iname + 1`. -/
def afx_col (names : List String) (data : List (List Cell)) (name : String) :
    Option (List Cell) :=
  optList (data.map (fun row => row.get? (listIndex name names)))

/-- part_000 cell 3, the whole loader loop building `afx_dict`: one
`(name, column)` entry per column name, in `names` order; the whole load
fails if any subscript raises. -/
def afx_load (names : List String) (data : List (List Cell)) :
    Option (List (String × List Cell)) :=
  optList (names.map (fun name =>
    (afx_col names data name).map (fun col => (name, col))))

/-- part_000 cell 3: `highest_open = max([i for i in afx_dict['Open'] if i is
not None])`, as a function of the `Open` column. -/
def highest_open (colOpen : List Cell) : Option ℚ :=
  pyMax (colOpen.filterMap id)

/-- part_000 cell 4: `daily_changes = [a - b for a, b in zip(afx_dict['High'],
afx_dict['Low'])]`; no `None` guard, so a null high or low raises `TypeError`
and aborts the whole comprehension. -/
def daily_changes (high low : List Cell) : Option (List ℚ) :=
  optList ((high.zip low).map (fun ab =>
    match ab.1, ab.2 with
    | some a, some b => some (a - b)
    | _, _ => none))

/-- part_000 cell 4: `largest_change = max(daily_changes)`. -/
def largest_change (high low : List Cell) : Option ℚ :=
  (daily_changes high low).bind pyMax

/-- part_000 cell 5, the body of one loop iteration:
`item - closes[closes.index(item) - 1]` for a close column `cs`.
The predecessor is found by searching for the first occurrence of the value
`item` in the whole close list.  When that first occurrence is at position 0,
`closes[-1]` is Python's wrap-around indexing, i.e. the last element.  A
`None` participating in the subtraction raises `TypeError`, modelled by
`none`. -/
def delta (cs : List Cell) (item : Cell) : Option ℚ :=
  let i := listIndex item cs
  let prev : Cell := if i = 0 then cs.getLast?.getD none else cs.getD (i - 1) none
  match item, prev with
  | some a, some b => some (a - b)
  | _, _ => none

/-- part_000 cell 5:
`for item in closes[1:]:
   overnight_changes.append(item - closes[closes.index(item) - 1])`. -/
def overnight_changes (cs : List Cell) : Option (List ℚ) :=
  optList (cs.tail.map (delta cs))

/-- part_000 cell 5, the reporting branch: identical direction test to the
notebook, but the decrease branch prints the raw `neg_max_overnight` (no
`abs`), while the increase branch prints `abs(pos_max_overnight)`. -/
def overnight_report (cs : List Cell) : Option (Direction × ℚ) :=
  (overnight_changes cs).bind (fun oc =>
    match pyMax oc, pyMin oc with
    | some pos, some neg =>
        some (if |neg| > pos then (Direction.decrease, neg) else (Direction.increase, |pos|))
    | _, _ => none)

/-- part_000 cell 6: `avg_volume = statistics.mean(afx_dict['Traded Volume'])`
on the raw column: a `None` entry makes `statistics.mean` raise `TypeError`,
an empty column raises `StatisticsError`. -/
def avg_volume (vol : List Cell) : Option ℚ :=
  (optList vol).bind (fun vs =>
    if vs.isEmpty then none else some (vs.sum / vs.length))

/-- part_000 cell 7, the hand-rolled median on the raw `Traded Volume` column.
`median_ref = len(col)`; `sorted_trade_vol = sorted(col)`.  For an even
`median_ref` (including 0) the source computes
`median_index_1 = median_ref / 2 - 1` with Python 3 true division, which is a
`float`, and `sorted_trade_vol[median_index_1]` raises
`TypeError: list indices must be integers`, whatever the value — so the even
branch always raises, modelled by `none`.  For an odd count of at least 3,
`sorted` raises `TypeError` if any entry is `None` (a `None` cannot be
compared to a number); a singleton needs no comparison and is returned as is
(possibly the null itself).  Otherwise the middle element of the ascending
sort is returned via `median_index = median_ref // 2`. -/
def median_volume (vol : List Cell) : Option Cell :=
  let n := vol.length
  if n % 2 = 0 then none
  else if n = 1 then some (vol.headD none)
  else if vol.any (fun c => c.isNone) then none
  else some (some (((vol.filterMap id).insertionSort (· ≤ ·)).getD (n / 2) 0))

end Part000

/-! ### Generic helper lemmas about the Python-semantics combinators -/

theorem optList_eq_none_iff {α : Type} {l : List (Option α)} :
    optList l = none ↔ none ∈ l := by
  induction l with
  | nil => simp [optList]
  | cons x xs ih =>
    cases x with
    | none => simp [optList]
    | some a =>
      cases h : optList xs with
      | none => simp [optList, h, ← ih, h]
      | some v => simp [optList, h, ← ih, h]

theorem optList_map_eq_none_iff {α β : Type} {l : List α} {f : α → Option β} :
    optList (l.map f) = none ↔ ∃ a ∈ l, f a = none := by
  rw [optList_eq_none_iff]
  constructor
  · intro h
    obtain ⟨a, ha, hfa⟩ := List.mem_map.mp h
    exact ⟨a, ha, hfa.symm ▸ rfl⟩
  · intro ⟨a, ha, hfa⟩
    exact List.mem_map.mpr ⟨a, ha, hfa⟩

theorem optList_map_eq_map {α β : Type} (d : β) {l : List α} {f : α → Option β}
    (h : ∀ a ∈ l, (f a).isSome) :
    optList (l.map f) = some (l.map (fun a => (f a).getD d)) := by
  induction l with
  | nil => rfl
  | cons x xs ih =>
    have hx := h x (List.mem_cons_self x xs)
    obtain ⟨v, hv⟩ := Option.isSome_iff_exists.mp hx
    have ihx := ih (fun a ha => h a (List.mem_cons_of_mem x ha))
    simp [optList, hv, ihx]

theorem optList_map_some {α : Type} (l : List α) : optList (l.map some) = some l := by
  induction l with
  | nil => rfl
  | cons x xs ih => simp [optList, ih]

theorem foldl_perm_of_rightcomm {α β : Type} (f : β → α → β)
    (hf : ∀ b x y, f (f b x) y = f (f b y) x) {l l' : List α} (h : l.Perm l') :
    ∀ b, l.foldl f b = l'.foldl f b := by
  induction h with
  | nil => intro b; rfl
  | cons x _ ih => intro b; simp only [List.foldl_cons]; exact ih _
  | swap x y l => intro b; simp only [List.foldl_cons]; rw [hf]
  | trans _ _ ih1 ih2 => intro b; rw [ih1, ih2]

theorem maxStep_rightcomm (b : Option ℚ) (x y : ℚ) :
    maxStep (maxStep b x) y = maxStep (maxStep b y) x := by
  cases b <;> simp [maxStep, max_comm, Max.right_comm, max_left_comm]

theorem minStep_rightcomm (b : Option ℚ) (x y : ℚ) :
    minStep (minStep b x) y = minStep (minStep b y) x := by
  cases b <;> simp [minStep, min_comm, min_right_comm, min_left_comm]

theorem pyMax_perm {l l' : List ℚ} (h : l.Perm l') : pyMax l = pyMax l' :=
  foldl_perm_of_rightcomm maxStep maxStep_rightcomm h none

theorem pyMin_perm {l l' : List ℚ} (h : l.Perm l') : pyMin l = pyMin l' :=
  foldl_perm_of_rightcomm minStep minStep_rightcomm h none

theorem foldl_maxStep_isSome (l : List ℚ) (m : ℚ) : (l.foldl maxStep (some m)).isSome := by
  induction l generalizing m with
  | nil => rfl
  | cons x xs ih => simpa [maxStep] using ih (max m x)

theorem foldl_minStep_isSome (l : List ℚ) (m : ℚ) : (l.foldl minStep (some m)).isSome := by
  induction l generalizing m with
  | nil => rfl
  | cons x xs ih => simpa [minStep] using ih (min m x)

theorem pyMax_eq_none_iff {l : List ℚ} : pyMax l = none ↔ l = [] := by
  cases l with
  | nil => simp [pyMax]
  | cons x xs =>
    simp only [pyMax, List.foldl_cons]
    have h := foldl_maxStep_isSome xs x
    constructor
    · intro hn
      rw [show maxStep none x = some x from rfl] at hn
      rw [hn] at h
      cases h
    · intro hn; cases hn

theorem pyMin_eq_none_iff {l : List ℚ} : pyMin l = none ↔ l = [] := by
  cases l with
  | nil => simp [pyMin]
  | cons x xs =>
    simp only [pyMin, List.foldl_cons]
    have h := foldl_minStep_isSome xs x
    constructor
    · intro hn
      rw [show minStep none x = some x from rfl] at hn
      rw [hn] at h
      cases h
    · intro hn; cases hn

theorem listIndex_lt_length {α : Type} [DecidableEq α] {a : α} {l : List α} (h : a ∈ l) :
    listIndex a l < l.length := by
  induction l with
  | nil => cases h
  | cons b l ih =>
    by_cases hb : b = a
    · simp [listIndex, hb]
    · have ha : a ∈ l := by
        rcases List.mem_cons.mp h with h1 | h1
        · exact absurd h1.symm hb
        · exact h1
      simpa [listIndex, hb] using Nat.succ_lt_succ (ih ha)

theorem get?_listIndex {α : Type} [DecidableEq α] {a : α} {l : List α} (h : a ∈ l) :
    l.get? (listIndex a l) = some a := by
  induction l with
  | nil => cases h
  | cons b l ih =>
    by_cases hb : b = a
    · simp [listIndex, hb]
    · have ha : a ∈ l := by
        rcases List.mem_cons.mp h with h1 | h1
        · exact absurd h1.symm hb
        · exact h1
      simpa [listIndex, hb] using ih ha

theorem listIndex_eq_of {α : Type} [DecidableEq α] {a : α} {l : List α} {k : ℕ}
    (hhit : l.get? k = some a) (hmiss : ∀ m, m < k → l.get? m ≠ some a) :
    listIndex a l = k := by
  induction l generalizing k with
  | nil => simp [List.get?] at hhit
  | cons b l ih =>
    cases k with
    | zero =>
      simp only [List.get?] at hhit
      simp [listIndex, Option.some.inj hhit]
    | succ k' =>
      have hb : b ≠ a := by
        intro hba
        exact hmiss 0 (Nat.succ_pos _) (by simp [List.get?, hba])
      simp only [listIndex, hb, if_false]
      have hhit' : l.get? k' = some a := by simpa [List.get?] using hhit
      have hmiss' : ∀ m, m < k' → l.get? m ≠ some a := by
        intro m hm
        simpa [List.get?] using hmiss (m + 1) (Nat.succ_lt_succ hm)
      rw [ih hhit' hmiss']

theorem listIndex_get_of_nodup {α : Type} [DecidableEq α] {l : List α} (hnd : l.Nodup)
    {k : ℕ} (hk : k < l.length) : listIndex (l.get ⟨k, hk⟩) l = k := by
  apply listIndex_eq_of (List.get?_eq_get hk)
  intro m hm hcontra
  have hmlt : m < l.length := lt_trans hm hk
  rw [List.get?_eq_get hmlt] at hcontra
  have heq : (⟨m, hmlt⟩ : Fin l.length) = ⟨k, hk⟩ :=
    hnd.get_inj_iff.mp (Option.some.inj hcontra)
  exact absurd (congrArg Fin.val heq) (Nat.ne_of_lt hm)

/-! ### Structure of the notebook's adjacent-close delta list -/

theorem overnight_changes_single (x : Cell) : Notebook.overnight_changes [x] = [] := by
  simp [Notebook.overnight_changes, List.range_succ_eq_map]

theorem overnight_changes_cons_eq (x : Cell) (cs : List Cell) :
    Notebook.overnight_changes (x :: cs) =
      (List.range cs.length).filterMap (fun k =>
        match cs.getD k none, (x :: cs).getD k none with
        | some b, some a => some (b - a)
        | _, _ => none) := by
  unfold Notebook.overnight_changes
  rw [List.length_cons, List.range_succ_eq_map, List.filterMap_cons]
  simp only [reduceIte, List.filterMap_map]
  try rfl

theorem overnight_changes_cons (x y : Cell) (rest : List Cell) :
    Notebook.overnight_changes (x :: y :: rest) =
      (match x, y with | some a, some b => [b - a] | _, _ => []) ++
        Notebook.overnight_changes (y :: rest) := by
  rw [overnight_changes_cons_eq x (y :: rest), overnight_changes_cons_eq y rest]
  cases x <;> cases y <;>
    simp only [List.length_cons, List.range_succ_eq_map, List.filterMap_cons,
      List.filterMap_map, List.getD_cons_zero, List.nil_append, List.cons_append]
  all_goals rfl

/-- Positional (zip-with-successor) characterization of the notebook's
adjacent-close delta list. -/
theorem overnight_changes_zip (cs : List Cell) :
    Notebook.overnight_changes cs =
      (cs.zip cs.tail).filterMap (fun p =>
        match p.1, p.2 with
        | some a, some b => some (b - a)
        | _, _ => none) := by
  induction cs with
  | nil => rfl
  | cons x rest ih =>
    cases rest with
    | nil => simp [overnight_changes_single]
    | cons y rest' =>
      rw [overnight_changes_cons, ih]
      cases x <;> cases y <;> simp [List.zip_cons_cons, List.filterMap_cons]

theorem overnight_map_some (vs : List ℚ) :
    Notebook.overnight_changes (vs.map some) = (vs.zip vs.tail).map (fun p => p.2 - p.1) := by
  induction vs with
  | nil => rfl
  | cons v vs' ih =>
    cases vs' with
    | nil => simp [overnight_changes_single]
    | cons w rest =>
      simp only [List.map_cons] at ih ⊢
      rw [overnight_changes_cons, ih]
      simp [List.zip_cons_cons]

theorem p0_delta_cons (x : Cell) (cs' : List Cell) (item : Cell) (hne : x ≠ item)
    (hj : listIndex item cs' ≠ 0) :
    Part000.delta (x :: cs') item = Part000.delta cs' item := by
  obtain ⟨j', hj'⟩ := Nat.exists_eq_succ_of_ne_zero hj
  unfold Part000.delta
  simp [listIndex, hne, hj', List.getD_cons_succ]

theorem p0_delta_head (v w : ℚ) (R : List Cell) (hvw : v ≠ w) :
    Part000.delta (some v :: some w :: R) (some w) = some (w - v) := by
  unfold Part000.delta
  simp [listIndex, hvw]

theorem listIndex_cons_ne_zero {α : Type} [DecidableEq α] {b a : α} (l : List α)
    (hne : b ≠ a) : listIndex a (b :: l) ≠ 0 := by
  simp [listIndex, hne]

theorem p0_overnight_all_some : ∀ (vs : List ℚ), vs.Nodup →
    Part000.overnight_changes (vs.map some) = some (Notebook.overnight_changes (vs.map some))
  | [], _ => rfl
  | [_], _ => rfl
  | v :: w :: rest, h => by
    obtain ⟨hvmem, hwr⟩ := List.nodup_cons.mp h
    have hvw : v ≠ w := fun e => hvmem (e ▸ List.mem_cons_self w rest)
    have ih := p0_overnight_all_some (w :: rest) hwr
    simp only [List.map_cons] at ih ⊢
    rw [overnight_changes_cons]
    unfold Part000.overnight_changes
    simp only [List.tail_cons, List.map_cons]
    have hitem : ∀ item ∈ rest.map some,
        Part000.delta (some v :: some w :: rest.map some) item =
          Part000.delta (some w :: rest.map some) item := by
      intro item hitem
      obtain ⟨u, hu, rfl⟩ := List.mem_map.mp hitem
      have hvu : (some v : Cell) ≠ some u := by
        intro e
        exact hvmem (List.mem_cons_of_mem _ (Option.some.inj e ▸ hu))
      have hwu : (some w : Cell) ≠ some u := by
        intro e
        exact (List.nodup_cons.mp hwr).1 (Option.some.inj e ▸ hu)
      apply p0_delta_cons _ _ _ hvu
      exact listIndex_cons_ne_zero _ hwu
    rw [List.map_congr_left hitem, p0_delta_head v w (rest.map some) hvw]
    unfold Part000.overnight_changes at ih
    simp only [List.tail_cons] at ih
    simp only [optList, ih, Option.map_some', List.singleton_append]

/-! ### Column permutation invariance of the part_000 loader -/

theorem get?_ne_of_lt_listIndex {α : Type} [DecidableEq α] {a : α} {l : List α} {m : ℕ}
    (hm : m < listIndex a l) : l.get? m ≠ some a := by
  induction l generalizing m with
  | nil => simp [listIndex] at hm
  | cons b l ih =>
    by_cases hb : b = a
    · simp [listIndex, hb] at hm
    · cases m with
      | zero => simp [List.get?, hb]
      | succ m' =>
        have hm' : m' < listIndex a l := by
          have := hm
          simp only [listIndex, hb, if_false] at this
          omega
        simpa [List.get?] using ih hm'

theorem afx_col_perm (names : List String) (perm : List ℕ) (data : List (List Cell))
    (name : String) (hnd : names.Nodup) (hperm : perm.Perm (List.range names.length))
    (hmem : name ∈ names) (hrows : ∀ row ∈ data, row.length = names.length) :
    Part000.afx_col (perm.map (fun j => names.getD j ""))
        (data.map (fun row => perm.map (fun j => row.getD j none))) name =
      Part000.afx_col names data name := by
  have hi : listIndex name names < names.length := listIndex_lt_length hmem
  have hgeti : names.get? (listIndex name names) = some name := get?_listIndex hmem
  have himem : listIndex name names ∈ perm := hperm.mem_iff.mpr (List.mem_range.mpr hi)
  have hk : listIndex (listIndex name names) perm < perm.length := listIndex_lt_length himem
  have hpk : perm.get? (listIndex (listIndex name names) perm) = some (listIndex name names) :=
    get?_listIndex himem
  have helem : ∀ j ∈ perm, j < names.length := fun j hj =>
    List.mem_range.mp (hperm.mem_iff.mp hj)
  have hA : listIndex name (perm.map (fun j => names.getD j "")) =
      listIndex (listIndex name names) perm := by
    apply listIndex_eq_of
    · rw [List.get?_map, hpk, Option.map_some', List.getD_eq_get?, hgeti]
      rfl
    · intro m hm hcontra
      have hmlt : m < perm.length := lt_trans hm hk
      rw [List.get?_map, List.get?_eq_get hmlt, Option.map_some'] at hcontra
      have hjmem : perm.get ⟨m, hmlt⟩ ∈ perm := List.get_mem perm m hmlt
      have hjlt : perm.get ⟨m, hmlt⟩ < names.length := helem _ hjmem
      have hname : names.get ⟨perm.get ⟨m, hmlt⟩, hjlt⟩ = name := by
        have := Option.some.inj hcontra
        rwa [List.getD_eq_get?, List.get?_eq_get hjlt, Option.getD_some] at this
      have hge : names.get? (perm.get ⟨m, hmlt⟩) = some name := by
        rw [List.get?_eq_get hjlt, hname]
      have hji : perm.get ⟨m, hmlt⟩ = listIndex name names := by
        have h1 : names.get ⟨perm.get ⟨m, hmlt⟩, hjlt⟩ = names.get ⟨listIndex name names, hi⟩ := by
          rw [hname]
          exact (Option.some.inj (by rw [← List.get?_eq_get hi, hgeti])).symm
        exact congrArg Fin.val (hnd.get_inj_iff.mp h1)
      exact get?_ne_of_lt_listIndex hm (hji ▸ List.get?_eq_get hmlt)
  unfold Part000.afx_col
  rw [hA, List.map_map]
  congr 1
  apply List.map_congr_left
  intro row hrow
  show (perm.map (fun j => row.getD j none)).get? (listIndex (listIndex name names) perm) =
    row.get? (listIndex name names)
  have hilt : listIndex name names < row.length := (hrows row hrow) ▸ hi
  rw [List.get?_map, hpk, Option.map_some', List.getD_eq_get?, List.get?_eq_get hilt]
  rfl

/-! ### Load failure and well-formed-payload extraction lemmas -/

theorem afx_col_eq_none_iff {names : List String} {data : List (List Cell)} {name : String} :
    Part000.afx_col names data name = none ↔
      ∃ row ∈ data, row.length ≤ listIndex name names := by
  unfold Part000.afx_col
  rw [optList_map_eq_none_iff]
  constructor
  · intro ⟨row, hrow, hri⟩
    exact ⟨row, hrow, List.get?_eq_none.mp hri⟩
  · intro ⟨row, hrow, hri⟩
    exact ⟨row, hrow, List.get?_eq_none.mpr hri⟩

theorem afx_load_eq_none_iff {names : List String} {data : List (List Cell)}
    (hnd : names.Nodup) :
    Part000.afx_load names data = none ↔ ∃ row ∈ data, row.length < names.length := by
  unfold Part000.afx_load
  rw [optList_map_eq_none_iff]
  constructor
  · intro ⟨name, hname, hcol⟩
    rw [Option.map_eq_none'] at hcol
    obtain ⟨row, hrow, hri⟩ := afx_col_eq_none_iff.mp hcol
    exact ⟨row, hrow, lt_of_le_of_lt hri (listIndex_lt_length hname)⟩
  · intro ⟨row, hrow, hlen⟩
    have hpos : 0 < names.length := lt_of_le_of_lt (Nat.zero_le _) hlen
    have hklt : names.length - 1 < names.length := Nat.sub_lt hpos Nat.one_pos
    refine ⟨names.get ⟨names.length - 1, hklt⟩, List.get_mem names _ hklt, ?_⟩
    rw [Option.map_eq_none']
    apply afx_col_eq_none_iff.mpr
    refine ⟨row, hrow, ?_⟩
    rw [listIndex_get_of_nodup hnd hklt]
    omega

theorem afx_col_of_full {names : List String} {data : List (List Cell)} {name : String}
    (hmem : name ∈ names) (hrows : ∀ row ∈ data, names.length ≤ row.length) :
    Part000.afx_col names data name =
      some (data.map (fun row => row.getD (listIndex name names) none)) := by
  unfold Part000.afx_col
  rw [optList_map_eq_map none (fun row hrow => by
    rw [List.get?_eq_get (lt_of_lt_of_le (listIndex_lt_length hmem) (hrows row hrow))]
    rfl)]
  rfl

theorem col_extract {data : List (List Cell)} (j : ℕ) (h : ∀ row ∈ data, j < row.length) :
    optList (data.map (fun i => i.get? j)) =
      some (data.map (fun row => row.getD j none)) := by
  rw [optList_map_eq_map none (fun row hrow => by
    rw [List.get?_eq_get (h row hrow)]
    rfl)]
  rfl

theorem opens_of_wf {data : List (List Cell)} (h : ∀ row ∈ data, 7 ≤ row.length) :
    Notebook.opens data = some (data.filterMap (fun row => row.getD 1 none)) := by
  unfold Notebook.opens
  rw [col_extract 1 (fun row hrow => lt_of_lt_of_le (by norm_num) (h row hrow))]
  rw [Option.map_some']
  congr 1
  rw [List.filterMap_map]
  rfl

theorem traded_volume_of_wf {data : List (List Cell)} (h : ∀ row ∈ data, 7 ≤ row.length) :
    Notebook.traded_volume data = some (data.filterMap (fun row => row.getD 6 none)) := by
  unfold Notebook.traded_volume
  rw [col_extract 6 (fun row hrow => lt_of_lt_of_le (by norm_num) (h row hrow))]
  rw [Option.map_some']
  congr 1
  rw [List.filterMap_map]
  rfl

theorem closes_of_wf {data : List (List Cell)} (h : ∀ row ∈ data, 7 ≤ row.length) :
    Notebook.closes data = some (data.map (fun row => row.getD 4 none)) := by
  unfold Notebook.closes
  exact col_extract 4 (fun row hrow => lt_of_lt_of_le (by norm_num) (h row hrow))

theorem pyMedian_eq_none_iff {l : List ℚ} : pyMedian l = none ↔ l = [] := by
  unfold pyMedian
  by_cases h0 : l.length = 0
  · simp [h0, List.length_eq_zero.mp h0]
  · simp only [h0, if_false]
    constructor
    · intro hc
      by_cases hodd : l.length % 2 = 1 <;> simp [hodd] at hc
    · intro hc
      exact absurd (hc ▸ rfl) h0

/-! ### Permutation invariance helpers for the statistics -/

theorem optList_map_perm {α β : Type} (d : β) {l l' : List α} (h : l.Perm l')
    (f : α → Option β) :
    (optList (l.map f) = none ∧ optList (l'.map f) = none) ∨
      ∃ v v', optList (l.map f) = some v ∧ optList (l'.map f) = some v' ∧ v.Perm v' := by
  by_cases hn : ∃ a ∈ l, f a = none
  · left
    refine ⟨optList_map_eq_none_iff.mpr hn, optList_map_eq_none_iff.mpr ?_⟩
    obtain ⟨a, ha, hfa⟩ := hn
    exact ⟨a, h.mem_iff.mp ha, hfa⟩
  · right
    have hs : ∀ a ∈ l, (f a).isSome := by
      intro a ha
      cases hfa : f a with
      | none => exact absurd ⟨a, ha, hfa⟩ hn
      | some v => rfl
    have hs' : ∀ a ∈ l', (f a).isSome := fun a ha => hs a (h.mem_iff.mpr ha)
    exact ⟨_, _, optList_map_eq_map d hs, optList_map_eq_map d hs', h.map _⟩

theorem insertionSort_eq_of_perm {l l' : List ℚ} (h : l.Perm l') :
    l.insertionSort (· ≤ ·) = l'.insertionSort (· ≤ ·) :=
  List.eq_of_perm_of_sorted
    ((List.perm_insertionSort _ l).trans (h.trans (List.perm_insertionSort _ l').symm))
    (List.sorted_insertionSort _ l) (List.sorted_insertionSort _ l')

theorem pyMedian_perm {l l' : List ℚ} (h : l.Perm l') : pyMedian l = pyMedian l' := by
  unfold pyMedian
  rw [insertionSort_eq_of_perm h, h.length_eq]

theorem optList_length {α : Type} {l : List (Option α)} {v : List α}
    (h : optList l = some v) : v.length = l.length := by
  induction l generalizing v with
  | nil => cases h; rfl
  | cons x xs ih =>
    cases x with
    | none => cases h
    | some a =>
      simp only [optList] at h
      cases hx : optList xs with
      | none => rw [hx] at h; cases h
      | some w =>
        rw [hx, Option.map_some'] at h
        cases h
        simpa using ih hx

theorem report_eq_none_iff {cs : List Cell} :
    Notebook.report cs = none ↔ Notebook.overnight_changes cs = [] := by
  unfold Notebook.report Notebook.pos_max_overnight Notebook.neg_max_overnight
  by_cases hoc : Notebook.overnight_changes cs = []
  · simp [hoc, pyMax, pyMin]
  · obtain ⟨p, hp⟩ := Option.ne_none_iff_exists'.mp (fun hc => hoc (pyMax_eq_none_iff.mp hc))
    obtain ⟨n, hn⟩ := Option.ne_none_iff_exists'.mp (fun hc => hoc (pyMin_eq_none_iff.mp hc))
    rw [hp, hn]
    simp [hoc]

theorem hl_match_eq_none_iff (o1 o2 : Option Cell) :
    (match o1, o2 with
      | some (some a), some (some b) => some (a - b)
      | _, _ => (none : Option ℚ)) = none ↔
      ¬∃ a b : ℚ, o1 = some (some a) ∧ o2 = some (some b) := by
  rcases o1 with _ | _ | a <;> rcases o2 with _ | _ | b <;> simp

/-! ### Claim theorems -/

/-- C1: for every close column with at least one adjacent pair of non-null
closes (equivalently: `max` and `min` of the delta list succeed, with values
`pos` and `neg`), the notebook's largest-overnight-change report is a decrease
of magnitude `abs neg` when `abs neg > pos` and otherwise an increase of
magnitude `pos`; in particular a tie reports an increase, closes
100, 102, 100 report an increase of 2, and a reported decrease always has the
non-negative magnitude `abs neg`.  The final conjunct records where the
part_000 rendition deviates from the claim: on closes 100, 102, 99 it reports
the raw `neg_max_overnight` value -3 as the decrease instead of the magnitude
`abs (-3) = 3` (its `abs` sits uselessly on the increase branch). -/
theorem c1_direction_policy :
    (∀ (cs : List Cell) (pos neg : ℚ),
      Notebook.pos_max_overnight cs = some pos →
      Notebook.neg_max_overnight cs = some neg →
      (Notebook.report cs =
          some (if |neg| > pos then (Direction.decrease, |neg|) else (Direction.increase, pos)) ∧
        (|neg| = pos → Notebook.report cs = some (Direction.increase, pos)) ∧
        (∀ m, Notebook.report cs = some (Direction.decrease, m) → m = |neg| ∧ 0 ≤ m))) ∧
      Notebook.report [some 100, some 102, some 100] = some (Direction.increase, 2) ∧
      Part000.overnight_report [some 100, some 102, some 99] = some (Direction.decrease, -3) := by
  refine ⟨?_, ?_, ?_⟩
  case refine_2 =>
    simp only [Notebook.report, Notebook.pos_max_overnight, Notebook.neg_max_overnight,
      overnight_changes_cons, overnight_changes_single, pyMax, pyMin, maxStep, minStep,
      List.foldl_cons, List.foldl_nil, List.cons_append, List.nil_append]
    norm_num
  case refine_3 =>
    simp only [Part000.overnight_report, Part000.overnight_changes, Part000.delta, listIndex,
      optList, List.tail_cons, List.map_cons, List.map_nil, pyMax, pyMin,
      List.foldl_cons, List.foldl_nil]
    norm_num [maxStep, minStep, max_def, min_def]
  intro cs pos neg hpos hneg
  have hrep : Notebook.report cs =
      some (if |neg| > pos then (Direction.decrease, |neg|) else (Direction.increase, pos)) := by
    unfold Notebook.report
    rw [hpos, hneg]
  refine ⟨hrep, ?_, ?_⟩
  · intro htie
    rw [hrep, if_neg (by rw [htie]; exact lt_irrefl pos)]
  · intro m hm
    rw [hrep] at hm
    by_cases hgt : |neg| > pos
    · rw [if_pos hgt] at hm
      have := (Prod.mk.injEq .. ▸ Option.some.inj hm).2
      exact ⟨this.symm, this ▸ abs_nonneg neg⟩
    · rw [if_neg hgt] at hm
      cases (Prod.mk.injEq .. ▸ Option.some.inj hm).1

/-- C1 witness: on closes 100, 102, 99 the notebook reports a decrease of
magnitude 3. -/
theorem c1_witness :
    Notebook.report [some 100, some 102, some 99] = some (Direction.decrease, 3) := by
  have h := c1_direction_policy.1 [some 100, some 102, some 99] 2 (-3)
    (by
      simp only [Notebook.pos_max_overnight, overnight_changes_cons, overnight_changes_single,
        pyMax, maxStep, List.foldl_cons, List.foldl_nil, List.cons_append, List.nil_append]
      norm_num)
    (by
      simp only [Notebook.neg_max_overnight, overnight_changes_cons, overnight_changes_single,
        pyMin, minStep, List.foldl_cons, List.foldl_nil, List.cons_append, List.nil_append]
      norm_num)
  rw [h.1]
  norm_num

/-- C4: in the notebook's largest-overnight-change computation, adjacency is
positional in the raw close sequence: the delta list is exactly the filterMap
over positionally adjacent pairs, a pair contributing exactly when both its
closes are non-null, so a null close at one position drops only the two pairs
it belongs to — in particular (second conjunct) the non-null closes on either
side of a null are not paired with each other.  The last conjunct records
where the part_000 rendition deviates from the claim: on the same shape of
input its loop raises `TypeError` instead of skipping the affected pairs. -/
theorem c4_positional_adjacency :
    (∀ cs : List Cell,
      Notebook.overnight_changes cs =
        (cs.zip cs.tail).filterMap (fun p =>
          match p.1, p.2 with
          | some a, some b => some (b - a)
          | _, _ => none)) ∧
      Notebook.overnight_changes [some 100, none, some 102] = [] ∧
      Part000.overnight_changes [some 100, none, some 102] = none :=
  ⟨overnight_changes_zip, by decide, by decide⟩

/-- C10 counterexample: the series of closes 1, null, 5 has pairwise-distinct
non-null close values, yet the part_000 delta list (which raises `TypeError`
on the null close) differs from the notebook's enumerate-based delta list
(which skips the two pairs touching the null and yields the empty list). -/
theorem c10_counterexample :
    (([some 1, none, some 5] : List Cell).filterMap id).Nodup ∧
      Part000.overnight_changes [some 1, none, some 5] ≠
        some (Notebook.overnight_changes [some 1, none, some 5]) := by
  decide

/-- C10 amended: the part_000 delta list agrees with the notebook's
enumerate-based delta list on every series whose closes are all non-null AND
pairwise distinct; with a duplicated close value the two can differ, because
part_000 pairs a later occurrence of a value with the element preceding that
value's first occurrence: on closes 0, 5, 5 part_000 yields deltas 5, 5 while
the notebook yields 5, 0. -/
theorem c10_amended_equivalence :
    (∀ vs : List ℚ, vs.Nodup →
      Part000.overnight_changes (vs.map some) =
        some (Notebook.overnight_changes (vs.map some))) ∧
      Part000.overnight_changes [some 0, some 5, some 5] = some [5, 5] ∧
      Notebook.overnight_changes [some 0, some 5, some 5] = [5, 0] :=
  ⟨fun vs h => p0_overnight_all_some vs h,
    by
      simp only [Part000.overnight_changes, Part000.delta, listIndex, optList, List.tail_cons,
        List.map_cons, List.map_nil]
      norm_num,
    by
      simp only [overnight_changes_cons, overnight_changes_single, List.cons_append,
        List.nil_append]
      norm_num⟩

/-- C10 witness: on the all-distinct close values 100, 102, 99 the two delta
lists agree. -/
theorem c10_witness :
    Part000.overnight_changes ([100, 102, 99].map some) =
      some (Notebook.overnight_changes ([100, 102, 99].map some)) :=
  c10_amended_equivalence.1 [100, 102, 99] (by decide)

/-- C5: the notebook's median volume is Python's `statistics.median` of
exactly the non-null traded volumes (standard median: sort ascending, middle
element for an odd count, mean of the two middle elements for an even count),
it succeeds on every non-empty volume list, and it yields 20 on 10, 20, 30
and 25 on 10, 20, 30, 40.  The final conjunct records where the part_000
rendition deviates from the claim: its hand-rolled median computes the even
branch index with Python 3 true division (a `float`), so list indexing raises
`TypeError` on every even count — including the claim's own example
10, 20, 30, 40 — instead of returning the average of the two middle
elements. -/
theorem c5_median_standard :
    (∀ (data : List (List Cell)) (tv : List ℚ),
      Notebook.traded_volume data = some tv → Notebook.median_volume data = pyMedian tv) ∧
    (∀ tv : List ℚ, tv ≠ [] → (pyMedian tv).isSome) ∧
      pyMedian [10, 20, 30] = some 20 ∧
      pyMedian [10, 20, 30, 40] = some 25 ∧
      Part000.median_volume [some 10, some 20, some 30, some 40] = none := by
  refine ⟨?_, ?_, ?_, ?_, ?_⟩
  · intro data tv htv
    unfold Notebook.median_volume
    rw [htv]
    rfl
  · intro tv h
    cases hm : pyMedian tv with
    | none => exact absurd (pyMedian_eq_none_iff.mp hm) h
    | some m => rfl
  · norm_num [pyMedian, List.insertionSort, List.orderedInsert,
      List.getD_cons_succ, List.getD_cons_zero]
  · norm_num [pyMedian, List.insertionSort, List.orderedInsert,
      List.getD_cons_succ, List.getD_cons_zero]
  · norm_num [Part000.median_volume]

/-- C5 witness: on a series whose traded volumes are 10, 20, 30, 40 the
notebook's median volume is 25. -/
theorem c5_witness :
    Notebook.median_volume [[none, none, none, none, none, none, some 10],
      [none, none, none, none, none, none, some 20],
      [none, none, none, none, none, none, some 30],
      [none, none, none, none, none, none, some 40]] = some 25 := by
  rw [c5_median_standard.1 _ [10, 20, 30, 40] (by decide)]
  norm_num [pyMedian, List.insertionSort, List.orderedInsert,
    List.getD_cons_succ, List.getD_cons_zero]

/-- C6: the notebook's mean volume is the arithmetic mean of exactly the
non-null traded volumes (nulls are excluded from both the sum and the
denominator), it succeeds when some volumes are null, and on volumes
100, null, 300 it returns 200.  The final conjunct records where the part_000
rendition deviates from the claim: it passes the raw unfiltered column to
`statistics.mean`, which raises `TypeError` on the null instead of returning
200. -/
theorem c6_mean_excludes_nulls :
    (∀ (data : List (List Cell)) (tv : List ℚ),
      Notebook.traded_volume data = some tv → tv ≠ [] →
      Notebook.avg_volume data = some (tv.sum / tv.length)) ∧
      Notebook.avg_volume [[none, none, none, none, none, none, some 100],
        [none, none, none, none, none, none, none],
        [none, none, none, none, none, none, some 300]] = some 200 ∧
      Part000.avg_volume [some 100, none, some 300] = none := by
  refine ⟨?_, ?_, ?_⟩
  · intro data tv htv hne
    unfold Notebook.avg_volume
    rw [htv]
    cases tv with
    | nil => exact absurd rfl hne
    | cons a l => rfl
  · have h : Notebook.traded_volume [[none, none, none, none, none, none, some 100],
        [none, none, none, none, none, none, none],
        [none, none, none, none, none, none, some 300]] = some [100, 300] := by decide
    unfold Notebook.avg_volume
    rw [h]
    norm_num [List.sum_cons, List.sum_nil]
    exact fun hc => absurd hc (List.cons_ne_nil _ _)
  · rfl

/-- C6 witness: on a series whose non-null traded volumes are 4 and 8 the
notebook's mean volume is 6. -/
theorem c6_witness :
    Notebook.avg_volume [[none, none, none, none, none, none, some 4],
      [none, none, none, none, none, none, some 8]] = some 6 := by
  rw [c6_mean_excludes_nulls.1 _ [4, 8] (by decide) (by decide)]
  norm_num [List.sum_cons, List.sum_nil]

/-- C3 counterexample: the claim says records missing high or low are
excluded and the computation still succeeds, but on a series holding one
fully usable record (high 10, low 8) and one record with a null high, the
notebook's largest intraday change raises (`None` arithmetic) instead of
returning 2; the second conjunct shows the filtered usable-record delta list
the claim expects is non-empty. -/
theorem c3_counterexample :
    Notebook.largest_change [[none, none, some 10, some 8], [none, none, none, some 1]] = none ∧
      ([[none, none, some 10, some 8], [none, none, none, some 1]] : List (List Cell)).filterMap
        (fun i =>
          match i.getD 2 none, i.getD 3 none with
          | some a, some b => some (a - b)
          | _, _ => none) ≠ [] :=
  ⟨rfl, by decide⟩

/-- C3 amended: the notebook's largest intraday change does not exclude
records with a null high or low — it computes `high - low` over all records
and fails exactly when the series is empty or any record lacks a usable high
or low; when every record has both, it returns the maximum of the per-record
differences. -/
theorem c3_amended :
    (∀ data : List (List Cell),
      Notebook.largest_change data = none ↔
        data = [] ∨ ∃ row ∈ data, ¬∃ a b : ℚ,
          row.get? 2 = some (some a) ∧ row.get? 3 = some (some b)) ∧
    (∀ data : List (List Cell),
      (∀ row ∈ data, ∃ a b : ℚ, row.get? 2 = some (some a) ∧ row.get? 3 = some (some b)) →
      Notebook.largest_change data =
        pyMax (data.map (fun row => (row.getD 2 none).getD 0 - (row.getD 3 none).getD 0))) := by
  constructor
  · intro data
    unfold Notebook.largest_change
    cases hX : optList (data.map (fun i =>
        match i.get? 2, i.get? 3 with
        | some (some a), some (some b) => some (a - b)
        | _, _ => none)) with
    | none =>
      simp only [hX, Option.none_bind, true_iff]
      obtain ⟨row, hrow, hg⟩ := optList_map_eq_none_iff.mp hX
      exact Or.inr ⟨row, hrow, (hl_match_eq_none_iff _ _).mp hg⟩
    | some l =>
      have hnobad : ¬∃ row ∈ data, ¬∃ a b : ℚ,
          row.get? 2 = some (some a) ∧ row.get? 3 = some (some b) := by
        intro ⟨row, hrow, hbad⟩
        have hg := (hl_match_eq_none_iff (row.get? 2) (row.get? 3)).mpr hbad
        have hcontra : optList (data.map (fun i =>
            match i.get? 2, i.get? 3 with
            | some (some a), some (some b) => some (a - b)
            | _, _ => none)) = none := optList_map_eq_none_iff.mpr ⟨row, hrow, hg⟩
        rw [hcontra] at hX
        cases hX
      have hlen := optList_length hX
      rw [List.length_map] at hlen
      simp only [hX, Option.some_bind]
      rw [pyMax_eq_none_iff]
      constructor
      · intro hl
        exact Or.inl (List.length_eq_zero.mp (by rw [← hlen, hl]; rfl))
      · rintro (h | h)
        · subst h
          have : l.length = 0 := by rw [hlen]; rfl
          exact List.length_eq_zero.mp this
        · exact absurd h hnobad
  · intro data h
    unfold Notebook.largest_change
    rw [optList_map_eq_map (0 : ℚ) (fun row hrow => by
      obtain ⟨a, b, h2, h3⟩ := h row hrow
      rw [h2, h3]
      rfl)]
    rw [Option.some_bind]
    congr 1
    apply List.map_congr_left
    intro row hrow
    obtain ⟨a, b, h2, h3⟩ := h row hrow
    rw [List.get?_eq_getElem?] at h2 h3
    simp [List.getD_eq_get?, h2, h3]

/-- C3 witness: on the single fully usable record (high 10, low 8) the
notebook's largest intraday change is 2. -/
theorem c3_witness :
    Notebook.largest_change [[none, none, some 10, some 8]] = some 2 := by
  rw [c3_amended.2 [[none, none, some 10, some 8]] (by
    intro row hrow
    rw [List.mem_singleton] at hrow
    subst hrow
    exact ⟨10, 8, rfl, rfl⟩)]
  show pyMax [(10 : ℚ) - 8] = some 2
  norm_num [pyMax, maxStep, List.foldl_cons, List.foldl_nil]

/-- C7 counterexample: the claim says each statistic fails exactly when zero
usable values remain after filtering nulls for its own fields, but the
notebook's largest intraday change fails (`None` arithmetic) on a series that
still contains a usable record (high 7, low 4): failure is not limited to the
zero-usable-values case. -/
theorem c7_counterexample :
    Notebook.largest_change [[none, none, some 7, some 4, none, none, none],
        [none, none, none, some 2, none, none, none]] = none ∧
      ([[none, none, some 7, some 4, none, none, none],
        [none, none, none, some 2, none, none, none]] : List (List Cell)).filterMap
        (fun i =>
          match i.getD 2 none, i.getD 3 none with
          | some a, some b => some (a - b)
          | _, _ => none) ≠ [] :=
  ⟨rfl, by decide⟩

/-- C7 amended: on well-formed rows the notebook's open extrema, mean volume,
median volume and largest overnight change each fail exactly when zero usable
values remain after filtering nulls for their own fields (no silent zero or
null default), and the open extremum of an all-null open column fails; the
exception the claim overlooks is the largest intraday change, which also
fails when any record has a null high or low even though usable records
remain (see the counterexample). -/
theorem c7_amended :
    (∀ data : List (List Cell), (∀ row ∈ data, 7 ≤ row.length) →
      ((Notebook.highest_open data = none ↔
          data.filterMap (fun row => row.getD 1 none) = []) ∧
        (Notebook.lowest_open data = none ↔
          data.filterMap (fun row => row.getD 1 none) = []) ∧
        (Notebook.avg_volume data = none ↔
          data.filterMap (fun row => row.getD 6 none) = []) ∧
        (Notebook.median_volume data = none ↔
          data.filterMap (fun row => row.getD 6 none) = []) ∧
        (Notebook.overnight_report data = none ↔
          Notebook.overnight_changes (data.map (fun row => row.getD 4 none)) = []))) ∧
      Notebook.highest_open [[none, none, none, none, none, none, none]] = none := by
  constructor
  · intro data hwf
    refine ⟨?_, ?_, ?_, ?_, ?_⟩
    · unfold Notebook.highest_open
      rw [opens_of_wf hwf, Option.some_bind, pyMax_eq_none_iff]
    · unfold Notebook.lowest_open
      rw [opens_of_wf hwf, Option.some_bind, pyMin_eq_none_iff]
    · unfold Notebook.avg_volume
      rw [traded_volume_of_wf hwf, Option.some_bind]
      cases htv : data.filterMap (fun row => row.getD 6 none) with
      | nil => simp
      | cons a l => simp
    · unfold Notebook.median_volume
      rw [traded_volume_of_wf hwf, Option.some_bind, pyMedian_eq_none_iff]
    · unfold Notebook.overnight_report
      rw [closes_of_wf hwf, Option.some_bind, report_eq_none_iff]
  · rfl

/-- C7 witness: on a series with a single non-null open, the open-extremum
failure condition is equivalent to the filtered open column being empty. -/
theorem c7_witness :
    Notebook.highest_open [[none, some 5, none, none, none, none, some 10]] = none ↔
      ([[none, some (5 : ℚ), none, none, none, none, some 10]] : List (List Cell)).filterMap
        (fun row => row.getD 1 none) = [] :=
  (c7_amended.1 [[none, some 5, none, none, none, none, some 10]] (by decide)).1

/-- C8 counterexample: the claim says a row whose date field is absent is
rejected with a MalformedRecord error naming the row index, but the part_000
loader performs no date validation at all: a payload whose only row has a
null date loads successfully. -/
theorem c8_counterexample :
    Part000.afx_load ["Date", "Open"] [[none, some 3]] =
      some [("Date", [none]), ("Open", [some 3])] := by
  decide

/-- C8 amended: for distinct column names the part_000 load fails exactly
when some row is shorter than the column-name list (an uncaught `IndexError`,
not a MalformedRecord naming the row index) — in particular an absent date
field is accepted — and on full-length rows every column loads successfully,
listing the values in input row order without sorting, deduplicating or
filtering. -/
theorem c8_amended :
    ∀ (names : List String) (data : List (List Cell)), names.Nodup →
      ((Part000.afx_load names data = none ↔ ∃ row ∈ data, row.length < names.length) ∧
        (∀ name ∈ names, (∀ row ∈ data, names.length ≤ row.length) →
          Part000.afx_col names data name =
            some (data.map (fun row => row.getD (listIndex name names) none)))) :=
  fun _ _ hnd =>
    ⟨afx_load_eq_none_iff hnd, fun _ hmem hrows => afx_col_of_full hmem hrows⟩

/-- C8 witness: a payload with a row shorter than the column-name list fails
to load. -/
theorem c8_witness :
    Part000.afx_load ["Date", "Open"] [[some (1 : ℚ)]] = none :=
  (c8_amended ["Date", "Open"] [[some (1 : ℚ)]] (by decide)).1.mpr
    ⟨[some (1 : ℚ)], by decide, by decide⟩

/-- C2 counterexample: the claim says every loaded field (hence every
downstream statistic) is unchanged under a simultaneous permutation of the
column names and of each row's entries, but the main notebook extracts fields
by fixed position: swapping the Date and Open columns (the permutation and
the permuted payload are spelled out in the first two conjuncts) changes its
highest-open statistic from 50 to a failure. -/
theorem c2_counterexample :
    ([1, 0].map (fun j => ["Date", "Open"].getD j "") = ["Open", "Date"]) ∧
      ([[some (50 : ℚ), none]] : List (List Cell)) =
        [[none, some (50 : ℚ)]].map (fun row => [1, 0].map (fun j => row.getD j none)) ∧
      Notebook.highest_open [[none, some 50]] = some 50 ∧
      Notebook.highest_open [[some 50, none]] = none := by
  decide

/-- C2 amended: the part_000 loader does resolve fields by column name: for
pairwise-distinct column names and full-length rows, every `afx_dict` column
— hence every statistic computed from `afx_dict` — is unchanged under a
simultaneous permutation of the column names and of each row's entries.  The
main notebook's fixed-position extraction has no such property (see the
counterexample). -/
theorem c2_amended_by_name_resolution :
    ∀ (names : List String) (perm : List ℕ) (data : List (List Cell)) (name : String),
      names.Nodup → perm.Perm (List.range names.length) → name ∈ names →
      (∀ row ∈ data, row.length = names.length) →
      Part000.afx_col (perm.map (fun j => names.getD j ""))
          (data.map (fun row => perm.map (fun j => row.getD j none))) name =
        Part000.afx_col names data name :=
  afx_col_perm

/-- C2 witness: swapping the Date and Open columns leaves the part_000 Open
column unchanged. -/
theorem c2_witness :
    Part000.afx_col ([1, 0].map (fun j => ["Date", "Open"].getD j ""))
        ([[none, some (50 : ℚ)]].map (fun row => [1, 0].map (fun j => row.getD j none)))
        "Open" =
      Part000.afx_col ["Date", "Open"] [[none, some (50 : ℚ)]] "Open" :=
  c2_amended_by_name_resolution ["Date", "Open"] [1, 0] [[none, some (50 : ℚ)]] "Open"
    (by decide) (by decide) (by decide) (by decide)

theorem opens_rel {data data' : List (List Cell)} (h : data.Perm data') :
    (Notebook.opens data = none ∧ Notebook.opens data' = none) ∨
      ∃ v v', Notebook.opens data = some v ∧ Notebook.opens data' = some v' ∧ v.Perm v' := by
  unfold Notebook.opens
  rcases optList_map_perm (none : Cell) h (fun i => i.get? 1) with ⟨h1, h2⟩ | ⟨v, v', h1, h2, hp⟩
  · left
    rw [h1, h2]
    exact ⟨rfl, rfl⟩
  · right
    exact ⟨v.filterMap id, v'.filterMap id, by rw [h1]; rfl, by rw [h2]; rfl, hp.filterMap id⟩

theorem traded_rel {data data' : List (List Cell)} (h : data.Perm data') :
    (Notebook.traded_volume data = none ∧ Notebook.traded_volume data' = none) ∨
      ∃ v v', Notebook.traded_volume data = some v ∧ Notebook.traded_volume data' = some v' ∧
        v.Perm v' := by
  unfold Notebook.traded_volume
  rcases optList_map_perm (none : Cell) h (fun i => i.get? 6) with ⟨h1, h2⟩ | ⟨v, v', h1, h2, hp⟩
  · left
    rw [h1, h2]
    exact ⟨rfl, rfl⟩
  · right
    exact ⟨v.filterMap id, v'.filterMap id, by rw [h1]; rfl, by rw [h2]; rfl, hp.filterMap id⟩

/-- C9: reordering the series does not change the notebook's open extrema,
largest intraday change, mean volume or median volume (they are invariant
under every permutation of the records), while the largest overnight change
is order-sensitive: permuting the closes 100, 102, 99 into 99, 100, 102 turns
a reported decrease of 3 into a reported increase of 2. -/
theorem c9_order_independence :
    (∀ data data' : List (List Cell), data.Perm data' →
      (Notebook.highest_open data = Notebook.highest_open data' ∧
        Notebook.lowest_open data = Notebook.lowest_open data' ∧
        Notebook.largest_change data = Notebook.largest_change data' ∧
        Notebook.avg_volume data = Notebook.avg_volume data' ∧
        Notebook.median_volume data = Notebook.median_volume data')) ∧
      (([[none, none, none, none, some (100 : ℚ)], [none, none, none, none, some 102],
          [none, none, none, none, some 99]] : List (List Cell)).Perm
        [[none, none, none, none, some 99], [none, none, none, none, some 100],
          [none, none, none, none, some 102]] ∧
        Notebook.overnight_report [[none, none, none, none, some 100],
          [none, none, none, none, some 102], [none, none, none, none, some 99]] =
          some (Direction.decrease, 3) ∧
        Notebook.overnight_report [[none, none, none, none, some 99],
          [none, none, none, none, some 100], [none, none, none, none, some 102]] =
          some (Direction.increase, 2)) := by
  constructor
  · intro data data' h
    refine ⟨?_, ?_, ?_, ?_, ?_⟩
    · unfold Notebook.highest_open
      rcases opens_rel h with ⟨h1, h2⟩ | ⟨v, v', h1, h2, hp⟩
      · rw [h1, h2]
      · rw [h1, h2, Option.some_bind, Option.some_bind, pyMax_perm hp]
    · unfold Notebook.lowest_open
      rcases opens_rel h with ⟨h1, h2⟩ | ⟨v, v', h1, h2, hp⟩
      · rw [h1, h2]
      · rw [h1, h2, Option.some_bind, Option.some_bind, pyMin_perm hp]
    · unfold Notebook.largest_change
      rcases optList_map_perm (0 : ℚ) h (fun i =>
          match i.get? 2, i.get? 3 with
          | some (some a), some (some b) => some (a - b)
          | _, _ => none) with ⟨h1, h2⟩ | ⟨v, v', h1, h2, hp⟩
      · rw [h1, h2]
      · rw [h1, h2, Option.some_bind, Option.some_bind, pyMax_perm hp]
    · unfold Notebook.avg_volume
      rcases traded_rel h with ⟨h1, h2⟩ | ⟨v, v', h1, h2, hp⟩
      · rw [h1, h2]
      · rw [h1, h2, Option.some_bind, Option.some_bind]
        by_cases hv : v = []
        · have hv' : v' = [] := List.length_eq_zero.mp (by rw [← hp.length_eq, hv]; rfl)
          rw [hv, hv']
        · have hv' : v' ≠ [] := fun hc =>
            hv (List.length_eq_zero.mp (by rw [hp.length_eq, hc]; rfl))
          have hie : v.isEmpty = false := by
            cases v with
            | nil => exact absurd rfl hv
            | cons a l => rfl
          have hie' : v'.isEmpty = false := by
            cases v' with
            | nil => exact absurd rfl hv'
            | cons a l => rfl
          rw [hie, hie']
          simp only [Bool.false_eq_true, if_false]
          rw [hp.sum_eq, hp.length_eq]
    · unfold Notebook.median_volume
      rcases traded_rel h with ⟨h1, h2⟩ | ⟨v, v', h1, h2, hp⟩
      · rw [h1, h2]
      · rw [h1, h2, Option.some_bind, Option.some_bind, pyMedian_perm hp]
  · refine ⟨by decide, ?_, ?_⟩
    · have hcl : Notebook.closes [[none, none, none, none, some 100],
          [none, none, none, none, some 102], [none, none, none, none, some 99]] =
          some [some 100, some 102, some 99] := by decide
      unfold Notebook.overnight_report
      rw [hcl, Option.some_bind]
      simp only [Notebook.report, Notebook.pos_max_overnight, Notebook.neg_max_overnight,
        overnight_changes_cons, overnight_changes_single, pyMax, pyMin, maxStep, minStep,
        List.foldl_cons, List.foldl_nil, List.cons_append, List.nil_append]
      norm_num
    · have hcl : Notebook.closes [[none, none, none, none, some 99],
          [none, none, none, none, some 100], [none, none, none, none, some 102]] =
          some [some 99, some 100, some 102] := by decide
      unfold Notebook.overnight_report
      rw [hcl, Option.some_bind]
      simp only [Notebook.report, Notebook.pos_max_overnight, Notebook.neg_max_overnight,
        overnight_changes_cons, overnight_changes_single, pyMax, pyMin, maxStep, minStep,
        List.foldl_cons, List.foldl_nil, List.cons_append, List.nil_append]
      norm_num

/-- C9 witness: swapping the two records of a series leaves the highest open
unchanged. -/
theorem c9_witness :
    Notebook.highest_open [[none, some (3 : ℚ), none, none, none, none, some 10],
        [none, some 7, none, none, none, none, some 20]] =
      Notebook.highest_open [[none, some 7, none, none, none, none, some 20],
        [none, some (3 : ℚ), none, none, none, none, some 10]] :=
  (c9_order_independence.1 _ _ (List.Perm.swap _ _ [])).1
